import Mathlib

/-!
# Verification of the MQTT broker interop plugin core

Shallow embedding of the converged metrics / topic-lifecycle module
(`src/mqtt.js`, the variant with table registry and `$SYS`-table
persistence) together with the query resources (`src/resources.js`) and
the earlier event-monitor variant that maintains the topic registry.

JavaScript strings are modelled as Lean `String`s; the JS string
operations used by the source (`split`, `includes`, `startsWith`,
`toLowerCase`, the `[^a-z0-9_]` character-class replace, `substring`)
are given explicit executable translations over `String.data`
(`List Char`).  JS numbers holding counters are modelled as `Int`
(they are incremented and decremented without bounds checks and can go
negative); load-average rates, which are produced by division, are
modelled as `ℚ`.
-/

set_option maxHeartbeats 1000000

namespace MqttInterop

/-- Translation of JavaScript `s.split(sep)` (single-character
separator) on the code-unit list: `""` splits to `[""]`, separators at
the ends produce empty segments. -/
def jsSplit (sep : Char) : List Char → List (List Char)
  | [] => [[]]
  | c :: cs =>
    if c = sep then [] :: jsSplit sep cs
    else
      match jsSplit sep cs with
      | [] => [[c]]
      | seg :: rest => (c :: seg) :: rest

/-- Translation of JavaScript `t.startsWith(p)`. -/
def strStartsWith (t p : String) : Bool := p.data.isPrefixOf t.data

/-- Translation of JavaScript `t.includes(c)` for a one-character
needle. -/
def strContainsChar (t : String) (c : Char) : Bool := t.data.contains c

/-- Translation of JavaScript `String.prototype.toLowerCase` on the
ASCII range (the only range the sanitizer can keep: any character that
lowercases outside `a`-`z` is replaced by `_` afterwards). -/
def jsToLowerChar (c : Char) : Char :=
  if 'A' ≤ c ∧ c ≤ 'Z' then Char.ofNat (c.toNat + 32) else c

/-- One character of the `replace(/[^a-z0-9_]/g, '_')` sanitizer from
`getTableNameForTopic`. -/
def tableNameChar (c : Char) : Char :=
  if ('a' ≤ c ∧ c ≤ 'z') ∨ ('0' ≤ c ∧ c ≤ '9') ∨ c = '_' then c else '_'

/-- `getTableNameForTopic` from `src/mqtt.js`: map an MQTT topic to the
backing table name.  Empty topic, topic with no `/`, and topic whose
first segment is empty map to the default table `mqtt_messages`;
otherwise the first segment is lowercased, sanitized and prefixed with
`mqtt_`. -/
def getTableNameForTopic (topic : String) : String :=
  if topic.data.isEmpty then "mqtt_messages"
  else
    let firstSegment := (jsSplit '/' topic.data).headD []
    if firstSegment.isEmpty || (firstSegment == topic.data && !(topic.data.contains '/')) then
      "mqtt_messages"
    else
      String.mk ("mqtt_".data ++ (firstSegment.map jsToLowerChar).map tableNameChar)

/-- `getTableNameForTopic` lifted to a possibly-null topic: JavaScript
`!topic` sends `null`/`undefined` (and the empty string) to the default
table. -/
def getTableNameForTopicOpt : Option String → String
  | none => "mqtt_messages"
  | some t => getTableNameForTopic t

/-- The topic-to-unit mapper as the specification words it: default
unit for an empty topic, a topic containing no separator, or a topic
starting with the separator; otherwise the fixed prefix followed by the
text before the first separator, lowercased with every character
outside `[a-z0-9_]` replaced by `_`. -/
def mapTopicToUnitSpec (topic : String) : String :=
  if topic.data.isEmpty then "mqtt_messages"
  else if !(topic.data.contains '/') then "mqtt_messages"
  else if topic.data.headD ' ' = '/' then "mqtt_messages"
  else
    String.mk ("mqtt_".data ++
      (topic.data.takeWhile (fun c => c != '/')).map (fun c => tableNameChar (jsToLowerChar c)))

/-! ## The metrics aggregator (`MqttMetrics` class of `src/mqtt.js`) -/

/-- A value written to or read from a `$SYS` topic: plain numbers,
strings, rational load averages, and ISO-rendered timestamps (the
rendering of an epoch-milliseconds instant by `Date.toISOString`,
modelled by its argument). -/
inductive SysVal where
  | int (n : Int)
  | rat (q : ℚ)
  | str (s : String)
  | iso (ms : Int)
deriving DecidableEq

/-- `this.clients` of `MqttMetrics`. -/
structure Clients where
  connected : Int
  disconnected : Int
  maximum : Int
  total : Int
  expired : Int
deriving DecidableEq

/-- `this.messages` of `MqttMetrics`. -/
structure Messages where
  received : Int
  sent : Int
  publishReceived : Int
  publishSent : Int
  publishDropped : Int
  inflight : Int
  stored : Int
deriving DecidableEq

/-- `this.bytes` of `MqttMetrics`. -/
structure ByteCounters where
  received : Int
  sent : Int
deriving DecidableEq

/-- `this.store` of `MqttMetrics`. -/
structure StoreStats where
  messageCount : Int
  messageBytes : Int
deriving DecidableEq

/-- `this.subscriptions` and `this.retained` of `MqttMetrics`. -/
structure CountBox where
  count : Int
deriving DecidableEq

/-- `this.heap` of `MqttMetrics`. -/
structure HeapStats where
  current : Int
  maximum : Int
deriving DecidableEq

/-- One `{oneMin, fiveMin, fifteenMin}` rate triple of `this.load`. -/
structure LoadTriple where
  oneMin : ℚ
  fiveMin : ℚ
  fifteenMin : ℚ
deriving DecidableEq

/-- `this.load` of `MqttMetrics`: the seven load-average families. -/
structure LoadMetrics where
  connections : LoadTriple
  messagesReceived : LoadTriple
  messagesSent : LoadTriple
  bytesReceived : LoadTriple
  bytesSent : LoadTriple
  publishReceived : LoadTriple
  publishSent : LoadTriple
deriving DecidableEq

/-- One `{time, value}` sample of `this._loadSamples`. -/
structure Sample where
  time : Int
  value : Int
deriving DecidableEq

/-- `this._loadSamples` of `MqttMetrics`. -/
structure LoadSamples where
  connections : List Sample
  messagesReceived : List Sample
  messagesSent : List Sample
  bytesReceived : List Sample
  bytesSent : List Sample
  publishReceived : List Sample
  publishSent : List Sample
deriving DecidableEq

/-- The `MqttMetrics` aggregator state.  `startTime` is the
construction instant (`new Date()`) in epoch milliseconds. -/
structure MqttMetrics where
  startTime : Int
  clients : Clients
  messages : Messages
  bytes : ByteCounters
  store : StoreStats
  subscriptions : CountBox
  retained : CountBox
  heap : HeapStats
  load : LoadMetrics
  loadSamples : LoadSamples
deriving DecidableEq

/-- The zero rate triple used by the constructor. -/
def LoadTriple.zero : LoadTriple := { oneMin := 0, fiveMin := 0, fifteenMin := 0 }

/-- The `MqttMetrics` constructor: every counter zero, every sample
list empty. -/
def MqttMetrics.init (startTime : Int) : MqttMetrics where
  startTime := startTime
  clients := { connected := 0, disconnected := 0, maximum := 0, total := 0, expired := 0 }
  messages := { received := 0, sent := 0, publishReceived := 0, publishSent := 0,
                publishDropped := 0, inflight := 0, stored := 0 }
  bytes := { received := 0, sent := 0 }
  store := { messageCount := 0, messageBytes := 0 }
  subscriptions := { count := 0 }
  retained := { count := 0 }
  heap := { current := 0, maximum := 0 }
  load := { connections := .zero, messagesReceived := .zero, messagesSent := .zero,
            bytesReceived := .zero, bytesSent := .zero,
            publishReceived := .zero, publishSent := .zero }
  loadSamples := { connections := [], messagesReceived := [], messagesSent := [],
                   bytesReceived := [], bytesSent := [],
                   publishReceived := [], publishSent := [] }

/-- Storage operations an event handler initiates (fire-and-forget
table creation, table drops, the async `mqtt_topics` record-count
tasks scheduled with `setTimeout`, and `upsertSysMetric` calls). -/
inductive StorageOp where
  | ensureTable (tableName : String)
  | dropTable (tableName : String)
  | subCountIncTask (topic : String)
  | subCountDecTask (topic : String)
  | sysUpsert (topic : String) (value : SysVal)
deriving DecidableEq

/-- `MqttMetrics.onConnect`: increment `connected`, recompute `total`,
raise the high-water mark, and upsert the three affected `$SYS`
metrics. -/
def MqttMetrics.onConnect (m : MqttMetrics) (_clientId : String) (_persistent : Bool) :
    MqttMetrics × List StorageOp :=
  let connected := m.clients.connected + 1
  let total := connected + m.clients.disconnected
  let maximum := if connected > m.clients.maximum then connected else m.clients.maximum
  ({ m with clients := { m.clients with connected := connected, total := total, maximum := maximum } },
   [.sysUpsert "$SYS/broker/clients/connected" (.int connected),
    .sysUpsert "$SYS/broker/clients/total" (.int total),
    .sysUpsert "$SYS/broker/clients/maximum" (.int maximum)])

/-- `MqttMetrics.onDisconnect`: decrement `connected` (floored at
zero), count persistent sessions in `disconnected`, recompute `total`,
and upsert the affected `$SYS` metrics. -/
def MqttMetrics.onDisconnect (m : MqttMetrics) (_clientId : String) (persistent : Bool) :
    MqttMetrics × List StorageOp :=
  let connected := if m.clients.connected > 0 then m.clients.connected - 1 else m.clients.connected
  let disconnected := if persistent then m.clients.disconnected + 1 else m.clients.disconnected
  let total := connected + disconnected
  ({ m with clients := { m.clients with connected := connected, disconnected := disconnected, total := total } },
   [.sysUpsert "$SYS/broker/clients/connected" (.int connected),
    .sysUpsert "$SYS/broker/clients/disconnected" (.int disconnected)])

/-- `MqttMetrics.onSubscribe`: increment the generic subscription
counter and upsert it. -/
def MqttMetrics.onSubscribe (m : MqttMetrics) (_clientId _topic : String) :
    MqttMetrics × List StorageOp :=
  let count := m.subscriptions.count + 1
  ({ m with subscriptions := { count := count } },
   [.sysUpsert "$SYS/broker/subscriptions/count" (.int count)])

/-- `MqttMetrics.onUnsubscribe`: decrement the generic subscription
counter (no floor in the source) and upsert it. -/
def MqttMetrics.onUnsubscribe (m : MqttMetrics) (_clientId _topic : String) :
    MqttMetrics × List StorageOp :=
  let count := m.subscriptions.count - 1
  ({ m with subscriptions := { count := count } },
   [.sysUpsert "$SYS/broker/subscriptions/count" (.int count)])

/-- `MqttMetrics.onPublishReceived` as in the event-monitor variant
(counters only): bump `messages.received`, `messages.publishReceived`
and `bytes.received`. -/
def MqttMetrics.onPublishReceived14 (m : MqttMetrics) (byteCount : Int) : MqttMetrics :=
  { m with
    messages := { m.messages with
      received := m.messages.received + 1,
      publishReceived := m.messages.publishReceived + 1 },
    bytes := { m.bytes with received := m.bytes.received + byteCount } }

/-! ## Load averages (`_calculateLoadAverages`) -/

/-- The `calculatePeriodAverage` helper of `_calculateLoadAverages`:
among the samples with `time > cutoffTime`, the last value minus the
first value, divided by the window length in minutes; `0` if no sample
falls in the window. -/
def calculatePeriodAverage (samples : List Sample) (cutoffTime : Int) (minutes : ℚ) : ℚ :=
  let periodSamples := samples.filter fun s => decide (cutoffTime < s.time)
  if 0 < periodSamples.length then
    (((periodSamples.getD (periodSamples.length - 1) ⟨0, 0⟩).value : ℚ) -
      ((periodSamples.getD 0 ⟨0, 0⟩).value : ℚ)) / minutes
  else 0

/-- The three windows of `TIME_WINDOWS`, applied to one sample list:
the body of the per-metric loop of `_calculateLoadAverages`. -/
def loadTripleOfSamples (samples : List Sample) (now : Int) : LoadTriple where
  oneMin := calculatePeriodAverage samples (now - 60 * 1000) 1
  fiveMin := calculatePeriodAverage samples (now - 5 * 60 * 1000) 5
  fifteenMin := calculatePeriodAverage samples (now - 15 * 60 * 1000) 15

/-- `MqttMetrics._calculateLoadAverages`: overwrite all three windows
of all seven load metrics from the current sample lists. -/
def MqttMetrics.calculateLoadAverages (m : MqttMetrics) (now : Int) : MqttMetrics :=
  { m with load :=
    { connections := loadTripleOfSamples m.loadSamples.connections now
      messagesReceived := loadTripleOfSamples m.loadSamples.messagesReceived now
      messagesSent := loadTripleOfSamples m.loadSamples.messagesSent now
      bytesReceived := loadTripleOfSamples m.loadSamples.bytesReceived now
      bytesSent := loadTripleOfSamples m.loadSamples.bytesSent now
      publishReceived := loadTripleOfSamples m.loadSamples.publishReceived now
      publishSent := loadTripleOfSamples m.loadSamples.publishSent now } }

/-! ## Table registry and event handlers (`setupMqttMonitoring`) -/

/-- One `tableRegistry` entry:
`{tableName, subscriptionCount, hasRetained}`. -/
structure TableEntry where
  tableName : String
  subscriptionCount : Int
  hasRetained : Bool
deriving DecidableEq

/-- Insert-or-replace in an association list keyed by strings, the
model of `Map.prototype.set`. -/
def assocSet {β : Type} : List (String × β) → String → β → List (String × β)
  | [], k, v => [(k, v)]
  | (k', v') :: rest, k, v =>
    if k' == k then (k, v) :: rest else (k', v') :: assocSet rest k v

/-- Remove a key from an association list, the model of
`Map.prototype.delete`. -/
def assocDelete {β : Type} : List (String × β) → String → List (String × β)
  | [], _ => []
  | (k', v') :: rest, k =>
    if k' == k then rest else (k', v') :: assocDelete rest k

/-- The in-memory `tableRegistry` (`Map` from table name to entry). -/
abbrev TableRegistry := List (String × TableEntry)

/-- `Set.prototype.add` on the ordered-set model of `topicRegistry`. -/
def setAdd (reg : List String) (t : String) : List String :=
  if reg.contains t then reg else reg ++ [t]

/-- `cleanupTable` from `src/mqtt.js`: drop the registry tracking for
a table.  The source deletes only the registry entry; it performs no
storage operation. -/
def cleanupTable (reg : TableRegistry) (tableName : String) : TableRegistry :=
  assocDelete reg tableName

/-- The module-level mutable state the event handlers touch: the
aggregator, the table registry, the published-topic registry, and
whether the shared `mqtt_topics` table handle is available. -/
structure MonState where
  metrics : MqttMetrics
  tableRegistry : TableRegistry
  topicRegistry : List String
  mqttTopicsAvailable : Bool
deriving DecidableEq

/-- The body of the `subscribe` event handler of `setupMqttMonitoring`
for one subscription topic: skip empty topics; `$SYS` topics only bump
the counter; non-wildcard topics schedule the async `mqtt_topics`
record update; wildcard topics bump the counter and run the
base-segment registry branch; plain topics run the registry
create-or-increment branch and bump the counter last. -/
def subscribeEventTopic (st : MonState) (clientId : String) (topic : String) :
    MonState × List StorageOp :=
  if topic.data.isEmpty then (st, [])
  else if strStartsWith topic "$SYS/" || topic == "$SYS/#" then
    let (m', ops) := st.metrics.onSubscribe clientId topic
    ({ st with metrics := m' }, ops)
  else
    let taskOps : List StorageOp :=
      if !(strContainsChar topic '#') && !(strContainsChar topic '+') then
        if st.mqttTopicsAvailable then [.subCountIncTask topic] else []
      else []
    if strContainsChar topic '#' || strContainsChar topic '+' then
      let (m', ops) := st.metrics.onSubscribe clientId topic
      let baseTopic := (jsSplit '/' topic.data).headD []
      if !baseTopic.isEmpty && !(baseTopic == "#".data) && !(baseTopic == "+".data) then
        let tableName := getTableNameForTopic (String.mk baseTopic)
        match List.lookup tableName st.tableRegistry with
        | none =>
          ({ st with
              metrics := m',
              tableRegistry := assocSet st.tableRegistry tableName
                { tableName := tableName, subscriptionCount := 1, hasRetained := false } },
           taskOps ++ ops ++ [.ensureTable tableName])
        | some entry =>
          ({ st with
              metrics := m',
              tableRegistry := assocSet st.tableRegistry tableName
                { entry with subscriptionCount := entry.subscriptionCount + 1 } },
           taskOps ++ ops)
      else ({ st with metrics := m' }, taskOps ++ ops)
    else
      let tableName := getTableNameForTopic topic
      let (reg1, createOps) :=
        if (List.lookup tableName st.tableRegistry).isSome then (st.tableRegistry, [])
        else
          (assocSet st.tableRegistry tableName
            { tableName := tableName, subscriptionCount := 0, hasRetained := false },
           [StorageOp.ensureTable tableName])
      let reg2 :=
        match List.lookup tableName reg1 with
        | some entry =>
          assocSet reg1 tableName { entry with subscriptionCount := entry.subscriptionCount + 1 }
        | none => reg1
      let (m', ops) := st.metrics.onSubscribe clientId topic
      ({ st with metrics := m', tableRegistry := reg2 }, taskOps ++ createOps ++ ops)

/-- The body of the `unsubscribe` event handler of
`setupMqttMonitoring` for one topic: always call `onUnsubscribe`; skip
`$SYS`, wildcard and empty topics; otherwise schedule the async
`mqtt_topics` record decrement, decrement the registry entry's
subscription count, and clean up the registry entry when the count
reaches zero with no retained message. -/
def unsubscribeEventTopic (st : MonState) (clientId : String) (topic : String) :
    MonState × List StorageOp :=
  let (m', ops) := st.metrics.onUnsubscribe clientId topic
  let st1 : MonState := { st with metrics := m' }
  if !topic.data.isEmpty && (strStartsWith topic "$SYS/" || topic == "$SYS/#") then (st1, ops)
  else if !topic.data.isEmpty && (strContainsChar topic '#' || strContainsChar topic '+') then
    (st1, ops)
  else if topic.data.isEmpty then (st1, ops)
  else
    let taskOps : List StorageOp :=
      if st1.mqttTopicsAvailable then [.subCountDecTask topic] else []
    let tableName := getTableNameForTopic topic
    match List.lookup tableName st1.tableRegistry with
    | some entry =>
      let entry' := { entry with subscriptionCount := entry.subscriptionCount - 1 }
      if entry'.subscriptionCount == 0 && !entry'.hasRetained then
        ({ st1 with tableRegistry :=
            cleanupTable (assocSet st1.tableRegistry tableName entry') tableName },
         ops ++ taskOps)
      else
        ({ st1 with tableRegistry := assocSet st1.tableRegistry tableName entry' },
         ops ++ taskOps)
    | none => (st1, ops ++ taskOps)

/-- The body of the `publish` event handler of the event-monitor
variant: count the publish via `onPublishReceived`, then add the topic
to `topicRegistry` unless it is absent, empty, or `$SYS/`-prefixed. -/
def publishEventTopic (st : MonState) (topic? : Option String) (payload? : Option String) :
    MonState :=
  let byteCount : Int :=
    match payload? with
    | some p => (p.utf8ByteSize : Int)
    | none => 0
  let m' := st.metrics.onPublishReceived14 byteCount
  let reg' :=
    match topic? with
    | some t =>
      if !t.data.isEmpty && !(strStartsWith t "$SYS/") then setAdd st.topicRegistry t
      else st.topicRegistry
    | none => st.topicRegistry
  { st with metrics := m', topicRegistry := reg' }

/-! ## The `$SYS` metrics publisher (`upsertSysMetric`) -/

/-- One row of the `mqtt_sys_metrics` table. -/
structure SysRecord where
  id : String
  topic : String
  value : String
  timestamp : String
deriving DecidableEq

/-- The `mqtt_sys_metrics` table, keyed by `id`. -/
structure SysTable where
  rows : List (String × SysRecord)
deriving DecidableEq

/-- `put` on the metrics table: upsert by primary key. -/
def SysTable.putRow (t : SysTable) (r : SysRecord) : SysTable :=
  { rows := assocSet t.rows r.id r }

/-- The state `upsertSysMetric` can see: the aggregator (untouched by
it), the registry, and the `sysMetricsTable` reference, `none` before
`setSysMetricsTable` has run. -/
structure SysStore where
  metrics : MqttMetrics
  tableRegistry : TableRegistry
  sysMetricsTable : Option SysTable
deriving DecidableEq

/-- `upsertSysMetric` from `src/mqtt.js`.  A logged no-op when the
table reference is not initialized; otherwise strips the `$SYS/`
prefix for the row id and writes the row inside a `try` whose `catch`
only logs — `putFailure` models whether the storage engine throws on
this write, and a failed write leaves every piece of state as it
was. -/
def upsertSysMetric (st : SysStore) (putFailure : Option String)
    (topic value nowIso : String) : SysStore :=
  match st.sysMetricsTable with
  | none => st
  | some tbl =>
    let relativePath :=
      if strStartsWith topic "$SYS/" then String.mk (topic.data.drop 5) else topic
    match putFailure with
    | some _ => st
    | none =>
      let row : SysRecord :=
        { id := relativePath, topic := topic, value := value, timestamp := nowIso }
      { st with sysMetricsTable := some (tbl.putRow row) }

/-! ## `$SYS` topic resolution (`SYS_TOPIC_MAP` and `SysTopics.get`) -/

/-- The environment probed by `getBrokerVersion`:
`harperServer?.version`, `process.env.HARPERDB_VERSION`,
`globalThis.harperVersion`. -/
structure Env where
  serverVersion : Option String
  envVersion : Option String
  globalVersion : Option String

/-- JS truthiness of a possibly-absent string. -/
def jsTruthyStr : Option String → Bool
  | none => false
  | some s => !s.data.isEmpty

/-- `getBrokerVersion`: first truthy probe, else the fallback
string. -/
def getBrokerVersion (env : Env) : String :=
  if jsTruthyStr env.serverVersion then env.serverVersion.getD ""
  else if jsTruthyStr env.envVersion then env.envVersion.getD ""
  else if jsTruthyStr env.globalVersion then env.globalVersion.getD ""
  else "HarperDB 4.x"

/-- JavaScript `Math.round` on a rational: round half away from zero
is `Math.round`'s half-up on the values produced here; `⌊q + 1/2⌋`
matches `Math.round` on every rational. -/
def jsMathRound (q : ℚ) : Int := Int.floor (q + 1 / 2)

/-- `SYS_TOPIC_MAP` from `src/mqtt.js`: the association of `$SYS`
topic paths to accessor functions of the current environment, clock
and metrics. -/
def SYS_TOPIC_MAP : List (String × (Env → Int → MqttMetrics → SysVal)) :=
  [("$SYS/broker/version", fun env _ _ => .str (getBrokerVersion env)),
   ("$SYS/broker/timestamp", fun _ _ m => .iso m.startTime),
   ("$SYS/broker/clients/connected", fun _ _ m => .int m.clients.connected),
   ("$SYS/broker/clients/disconnected", fun _ _ m => .int m.clients.disconnected),
   ("$SYS/broker/clients/maximum", fun _ _ m => .int m.clients.maximum),
   ("$SYS/broker/clients/total", fun _ _ m => .int m.clients.total),
   ("$SYS/broker/messages/received", fun _ _ m => .int m.messages.received),
   ("$SYS/broker/messages/sent", fun _ _ m => .int m.messages.sent),
   ("$SYS/broker/messages/inflight", fun _ _ m => .int m.messages.inflight),
   ("$SYS/broker/publish/messages/received", fun _ _ m => .int m.messages.publishReceived),
   ("$SYS/broker/publish/messages/sent", fun _ _ m => .int m.messages.publishSent),
   ("$SYS/broker/bytes/received", fun _ _ m => .int m.bytes.received),
   ("$SYS/broker/bytes/sent", fun _ _ m => .int m.bytes.sent),
   ("$SYS/broker/subscriptions/count", fun _ _ m => .int m.subscriptions.count),
   ("$SYS/broker/retained messages/count", fun _ _ m => .int m.retained.count),
   ("$SYS/broker/heap/current", fun _ _ m => .int m.heap.current),
   ("$SYS/broker/heap/current size", fun _ _ m => .int m.heap.current),
   ("$SYS/broker/heap/maximum", fun _ _ m => .int m.heap.maximum),
   ("$SYS/broker/heap/maximum size", fun _ _ m => .int m.heap.maximum),
   ("$SYS/broker/uptime", fun _ now m => .int ((now - m.startTime).fdiv 1000)),
   ("$SYS/broker/load/connections/1min", fun _ _ m => .int (jsMathRound m.load.connections.oneMin)),
   ("$SYS/broker/load/connections/5min", fun _ _ m => .int (jsMathRound m.load.connections.fiveMin)),
   ("$SYS/broker/load/connections/15min", fun _ _ m => .int (jsMathRound m.load.connections.fifteenMin)),
   ("$SYS/broker/load/messages/received/1min", fun _ _ m => .int (jsMathRound m.load.messagesReceived.oneMin)),
   ("$SYS/broker/load/messages/received/5min", fun _ _ m => .int (jsMathRound m.load.messagesReceived.fiveMin)),
   ("$SYS/broker/load/messages/received/15min", fun _ _ m => .int (jsMathRound m.load.messagesReceived.fifteenMin)),
   ("$SYS/broker/load/messages/sent/1min", fun _ _ m => .int (jsMathRound m.load.messagesSent.oneMin)),
   ("$SYS/broker/load/messages/sent/5min", fun _ _ m => .int (jsMathRound m.load.messagesSent.fiveMin)),
   ("$SYS/broker/load/messages/sent/15min", fun _ _ m => .int (jsMathRound m.load.messagesSent.fifteenMin)),
   ("$SYS/broker/load/bytes/received/1min", fun _ _ m => .int (jsMathRound m.load.bytesReceived.oneMin)),
   ("$SYS/broker/load/bytes/received/5min", fun _ _ m => .int (jsMathRound m.load.bytesReceived.fiveMin)),
   ("$SYS/broker/load/bytes/received/15min", fun _ _ m => .int (jsMathRound m.load.bytesReceived.fifteenMin)),
   ("$SYS/broker/load/bytes/sent/1min", fun _ _ m => .int (jsMathRound m.load.bytesSent.oneMin)),
   ("$SYS/broker/load/bytes/sent/5min", fun _ _ m => .int (jsMathRound m.load.bytesSent.fiveMin)),
   ("$SYS/broker/load/bytes/sent/15min", fun _ _ m => .int (jsMathRound m.load.bytesSent.fifteenMin)),
   ("$SYS/broker/load/publish/received/1min", fun _ _ m => .int (jsMathRound m.load.publishReceived.oneMin)),
   ("$SYS/broker/load/publish/received/5min", fun _ _ m => .int (jsMathRound m.load.publishReceived.fiveMin)),
   ("$SYS/broker/load/publish/received/15min", fun _ _ m => .int (jsMathRound m.load.publishReceived.fifteenMin)),
   ("$SYS/broker/load/publish/sent/1min", fun _ _ m => .int (jsMathRound m.load.publishSent.oneMin)),
   ("$SYS/broker/load/publish/sent/5min", fun _ _ m => .int (jsMathRound m.load.publishSent.fiveMin)),
   ("$SYS/broker/load/publish/sent/15min", fun _ _ m => .int (jsMathRound m.load.publishSent.fifteenMin))]

/-- The recognized `$SYS` topic paths: the keys of `SYS_TOPIC_MAP`. -/
def sysTopicKeys : List String := SYS_TOPIC_MAP.map Prod.fst

/-- A JavaScript value that `SysTopics.get` can return: a metric value
produced by a `SYS_TOPIC_MAP` accessor, or a stray non-null value that
leaks out of the prototype chain (`toString` yields the primitive
string `"[object Undefined]"`; `constructor` is `Object`, and
`Object(this.metrics)` returns the metrics object itself). -/
inductive JsValue where
  | sys (v : SysVal)
  | jsString (s : String)
  | jsObject
deriving DecidableEq

/-- The members of `Object.prototype` that an object literal inherits
and whose invocation as a detached function (`handler(this.metrics)`,
so with `this = undefined` in strict mode) throws a `TypeError` from
`ToObject(undefined)`. -/
def protoThrowingMethods : List String :=
  ["toLocaleString", "valueOf", "hasOwnProperty", "isPrototypeOf",
   "propertyIsEnumerable", "__defineGetter__", "__defineSetter__",
   "__lookupGetter__", "__lookupSetter__"]

/-- `SysTopics.get` from `src/mqtt.js`.  The source reads
`const handler = SYS_TOPIC_MAP[topic]` — a JavaScript property access
that falls through to `Object.prototype` when `topic` is not an own
key — and runs `if (handler) return handler(this.metrics)`.  Own keys
resolve to their accessor's value.  For the inherited names the
handler is truthy, and the call either throws (`__proto__`'s value is
`Object.prototype`, which is not callable; the strict-`this` methods
throw converting `undefined` to an object) or returns a stray
non-null value (`constructor` → `Object(this.metrics)`, the metrics
object; `toString` → `"[object Undefined]"`).  Every other path falls
through to `return null`. -/
def sysTopicGet (env : Env) (now : Int) (m : MqttMetrics) (path : String) :
    Except String (Option JsValue) :=
  match List.lookup path SYS_TOPIC_MAP with
  | some handler => .ok (some (.sys (handler env now m)))
  | none =>
    if path == "__proto__" then
      .error "TypeError: handler is not a function"
    else if path == "constructor" then
      .ok (some .jsObject)
    else if path == "toString" then
      .ok (some (.jsString "[object Undefined]"))
    else if protoThrowingMethods.contains path then
      .error "TypeError: cannot convert undefined to object"
    else
      .ok none

/-! ## Query resources (`src/resources.js`) -/

/-- One `{topic, timestamp}` element of a topic enumeration. -/
structure TopicStamp where
  topic : String
  timestamp : String
deriving DecidableEq

/-- One `{topic, value, timestamp}` element of a `$SYS`
enumeration. -/
structure TopicValueStamp where
  topic : String
  value : JsValue
  timestamp : String
deriving DecidableEq

/-- A result of the resource `get` handlers. -/
inductive QueryResult where
  | topicList (pattern : String) (count : Nat) (topics : List TopicStamp)
  | valueList (pattern : String) (count : Nat) (topics : List TopicValueStamp)
  | single (topic : String) (value : JsValue) (timestamp : String)
deriving DecidableEq

/-- Left-to-right traversal with exception propagation: the model of a
JavaScript `array.map(f)` whose callback may throw — the first throw
escapes the whole loop. -/
def exceptMapList {α β : Type} (f : α → Except String β) : List α → Except String (List β)
  | [] => .ok []
  | a :: as =>
    match f a with
    | .error e => .error e
    | .ok b =>
      match exceptMapList f as with
      | .error e => .error e
      | .ok bs => .ok (b :: bs)

/-- `ALL_SYS_TOPICS` from `src/resources.js`: the static enumeration
used by the wildcard branches (a superset of the topics
`SYS_TOPIC_MAP` resolves). -/
def ALL_SYS_TOPICS : List String :=
  ["$SYS/broker/version",
   "$SYS/broker/timestamp",
   "$SYS/broker/clients/connected",
   "$SYS/broker/clients/disconnected",
   "$SYS/broker/clients/maximum",
   "$SYS/broker/clients/total",
   "$SYS/broker/clients/expired",
   "$SYS/broker/messages/received",
   "$SYS/broker/messages/sent",
   "$SYS/broker/messages/inflight",
   "$SYS/broker/messages/stored",
   "$SYS/broker/publish/messages/received",
   "$SYS/broker/publish/messages/sent",
   "$SYS/broker/publish/messages/dropped",
   "$SYS/broker/bytes/received",
   "$SYS/broker/bytes/sent",
   "$SYS/broker/store/messages/count",
   "$SYS/broker/store/messages/bytes",
   "$SYS/broker/subscriptions/count",
   "$SYS/broker/retained messages/count",
   "$SYS/broker/heap/current",
   "$SYS/broker/heap/maximum",
   "$SYS/broker/uptime",
   "$SYS/broker/load/connections/1min",
   "$SYS/broker/load/connections/5min",
   "$SYS/broker/load/connections/15min",
   "$SYS/broker/load/messages/received/1min",
   "$SYS/broker/load/messages/received/5min",
   "$SYS/broker/load/messages/received/15min",
   "$SYS/broker/load/messages/sent/1min",
   "$SYS/broker/load/messages/sent/5min",
   "$SYS/broker/load/messages/sent/15min",
   "$SYS/broker/load/bytes/received/1min",
   "$SYS/broker/load/bytes/received/5min",
   "$SYS/broker/load/bytes/received/15min",
   "$SYS/broker/load/bytes/sent/1min",
   "$SYS/broker/load/bytes/sent/5min",
   "$SYS/broker/load/bytes/sent/15min",
   "$SYS/broker/load/publish/received/1min",
   "$SYS/broker/load/publish/received/5min",
   "$SYS/broker/load/publish/received/15min",
   "$SYS/broker/load/publish/sent/1min",
   "$SYS/broker/load/publish/sent/5min",
   "$SYS/broker/load/publish/sent/15min"]

/-- JavaScript `s.replace(pat, repl)` for a plain-string pattern:
replace the first occurrence only. -/
def replaceFirst (pat repl : List Char) : List Char → List Char
  | [] => []
  | c :: cs =>
    if pat.isPrefixOf (c :: cs) then repl ++ (c :: cs).drop pat.length
    else c :: replaceFirst pat repl cs

/-- `SysTopicsResource.get` from `src/resources.js`: root wildcard
enumerates the topic registry; `$SYS` wildcards map `SysTopics.get`
over `ALL_SYS_TOPICS` (a throw from the callback would escape the
whole `map`) and drop entries whose value resolved to `null`; an
exact `$SYS`-prefixed path resolves through `SysTopics.get`, whose
exception would propagate; anything else is `null`. -/
def sysTopicsResourceGet (env : Env) (now : Int) (m : MqttMetrics)
    (reg : List String) (nowIso : String) (path : String) :
    Except String (Option QueryResult) :=
  if path == "/#" || path == "#" then
    .ok (some (.topicList "/#" reg.length (reg.map fun t => ⟨t, nowIso⟩)))
  else if path == "$SYS/#" || path == "$SYS/*" then
    match exceptMapList (fun t => (sysTopicGet env now m t).map fun v? => (t, v?))
        ALL_SYS_TOPICS with
    | .error e => .error e
    | .ok pairs =>
      .ok (some (.valueList "$SYS/#" ALL_SYS_TOPICS.length
        (pairs.filterMap fun p => p.2.map fun v => ⟨p.1, v, nowIso⟩)))
  else if strStartsWith path "$SYS/" && strContainsChar path '#' then
    let prefixText := String.mk (replaceFirst "#".data [] (replaceFirst "/#".data "/".data path.data))
    let matching := ALL_SYS_TOPICS.filter fun t => strStartsWith t prefixText
    match exceptMapList (fun t => (sysTopicGet env now m t).map fun v? => (t, v?))
        matching with
    | .error e => .error e
    | .ok pairs =>
      .ok (some (.valueList path matching.length
        (pairs.filterMap fun p => p.2.map fun v => ⟨p.1, v, nowIso⟩)))
  else if strStartsWith path "$SYS/" then
    match sysTopicGet env now m path with
    | .error e => .error e
    | .ok (some v) => .ok (some (.single path v nowIso))
    | .ok none => .ok none
  else .ok none

/-- `WildcardTopicsResource.get` from `src/resources.js`: on the root
patterns, enumerate the topic registry with `$SYS/`-prefixed entries
filtered out; `null` on anything else. -/
def wildcardTopicsResourceGet (reg : List String) (nowIso : String) (path : String) :
    Option QueryResult :=
  if path == "/#" || path == "#" || path == "/" then
    let allTopics := reg.filter fun t => !(strStartsWith t "$SYS/")
    some (.topicList "/#" allTopics.length (allTopics.map fun t => ⟨t, nowIso⟩))
  else none

/-! ## Event sequences -/

/-- A client lifecycle event delivered to the aggregator. -/
inductive ClientEvent where
  | connect (clientId : String) (persistent : Bool)
  | disconnect (clientId : String) (persistent : Bool)
deriving DecidableEq

/-- Dispatch one client event to the aggregator. -/
def MqttMetrics.applyClientEvent (m : MqttMetrics) : ClientEvent → MqttMetrics
  | .connect clientId p => (m.onConnect clientId p).1
  | .disconnect clientId p => (m.onDisconnect clientId p).1

/-- Dispatch a sequence of client events to the aggregator. -/
def MqttMetrics.applyClientEvents (m : MqttMetrics) (evs : List ClientEvent) : MqttMetrics :=
  evs.foldl MqttMetrics.applyClientEvent m

/-- A publish event's `(packet?.topic, packet?.payload)` pair. -/
abbrev PublishPacket := Option String × Option String

/-- Dispatch a sequence of publish events. -/
def applyPublishEvents (st : MonState) (pubs : List PublishPacket) : MonState :=
  pubs.foldl (fun s p => publishEventTopic s p.1 p.2) st

/-- The module state at load time: fresh aggregator, empty `Map` and
`Set` registries. -/
def initMonState (startTime : Int) (mqttTopicsAvailable : Bool) : MonState where
  metrics := .init startTime
  tableRegistry := []
  topicRegistry := []
  mqttTopicsAvailable := mqttTopicsAvailable

example : getTableNameForTopic "home/kitchen/temp" = "mqtt_home" := by decide
example : getTableNameForTopic "home" = "mqtt_messages" := by decide
example : getTableNameForTopic "" = "mqtt_messages" := by decide
example : getTableNameForTopic "/upstairs/temp" = "mqtt_messages" := by decide
example : getTableNameForTopic "Home-1/x" = "mqtt_home_1" := by decide
example : getTableNameForTopic "a/" = "mqtt_a" := by decide
example : mapTopicToUnitSpec "Home-1/x" = "mqtt_home_1" := by decide

/-- Is the operation a drop of a storage unit? -/
def StorageOp.isDrop : StorageOp → Bool
  | .dropTable _ => true
  | _ => false

/-! ## Helper lemmas -/

theorem clients_total_eq_after_step (m : MqttMetrics) (ev : ClientEvent) :
    (m.applyClientEvent ev).clients.total =
      (m.applyClientEvent ev).clients.connected + (m.applyClientEvent ev).clients.disconnected := by
  cases ev with
  | connect clientId p =>
    simp [MqttMetrics.applyClientEvent, MqttMetrics.onConnect]
  | disconnect clientId p =>
    simp [MqttMetrics.applyClientEvent, MqttMetrics.onDisconnect]

theorem clients_maximum_le_step (m : MqttMetrics) (ev : ClientEvent) :
    m.clients.maximum ≤ (m.applyClientEvent ev).clients.maximum := by
  cases ev with
  | connect clientId p =>
    simp only [MqttMetrics.applyClientEvent, MqttMetrics.onConnect]
    split
    · omega
    · simp
  | disconnect clientId p =>
    simp [MqttMetrics.applyClientEvent, MqttMetrics.onDisconnect]

theorem clients_maximum_le_events (m : MqttMetrics) (evs : List ClientEvent) :
    m.clients.maximum ≤ (m.applyClientEvents evs).clients.maximum := by
  induction evs generalizing m with
  | nil => simp [MqttMetrics.applyClientEvents]
  | cons ev rest ih =>
    calc m.clients.maximum ≤ (m.applyClientEvent ev).clients.maximum :=
          clients_maximum_le_step m ev
      _ ≤ ((m.applyClientEvent ev).applyClientEvents rest).clients.maximum :=
          ih (m.applyClientEvent ev)

/-! ## Claim C4 -/

/-- C4: the claim states `subscriptions.count` is clamped at zero and
never negative, but the converged `onUnsubscribe` decrements without a
guard: one unsubscribe from the freshly constructed aggregator drives
the counter to `-1`. -/
theorem onUnsubscribe_from_zero_is_negative :
    (((MqttMetrics.init 0).onUnsubscribe "client1" "test/topic").1).subscriptions.count = -1 := by
  decide

/-! ## Claim C5 -/

/-- C5: after every `onConnect`/`onDisconnect` call of any sequence,
`clients.total = clients.connected + clients.disconnected` — both
methods end by recomputing `total` from the current `connected` and
`disconnected`. -/
theorem clients_total_invariant (m : MqttMetrics) (evs : List ClientEvent)
    (hne : evs ≠ []) :
    (m.applyClientEvents evs).clients.total =
      (m.applyClientEvents evs).clients.connected +
        (m.applyClientEvents evs).clients.disconnected := by
  induction evs generalizing m with
  | nil => exact absurd rfl hne
  | cons ev rest ih =>
    cases rest with
    | nil =>
      simpa [MqttMetrics.applyClientEvents] using clients_total_eq_after_step m ev
    | cons ev2 rest2 =>
      have h := ih (m := m.applyClientEvent ev) (by simp)
      simpa [MqttMetrics.applyClientEvents] using h

/-- Witness for C5 at a concrete event sequence. -/
theorem clients_total_invariant_witness :
    ((MqttMetrics.init 0).applyClientEvents
        [.connect "a" false, .connect "b" true, .disconnect "a" true]).clients.total =
      ((MqttMetrics.init 0).applyClientEvents
        [.connect "a" false, .connect "b" true, .disconnect "a" true]).clients.connected +
      ((MqttMetrics.init 0).applyClientEvents
        [.connect "a" false, .connect "b" true, .disconnect "a" true]).clients.disconnected :=
  clients_total_invariant (MqttMetrics.init 0) _ (by simp)

/-! ## Claim C6 -/

/-- C6: `clients.maximum` never decreases: each `onConnect` /
`onDisconnect` call leaves it greater than or equal to its previous
value, hence it is monotone along any event sequence. -/
theorem clients_maximum_monotone :
    (∀ (m : MqttMetrics) (ev : ClientEvent),
      m.clients.maximum ≤ (m.applyClientEvent ev).clients.maximum) ∧
    (∀ (m : MqttMetrics) (evs : List ClientEvent),
      m.clients.maximum ≤ (m.applyClientEvents evs).clients.maximum) :=
  ⟨clients_maximum_le_step, clients_maximum_le_events⟩

/-! ## Claim C8 -/

/-- C8: `upsertSysMetric` never throws and never touches the
aggregator or the registry: with an uninitialized table reference it
is a no-op, and a storage write failure is swallowed, leaving all
state unchanged. -/
theorem upsertSysMetric_is_total_and_frame
    (st : SysStore) (putFailure : Option String) (topic value nowIso : String) :
    (upsertSysMetric st putFailure topic value nowIso).metrics = st.metrics ∧
    (upsertSysMetric st putFailure topic value nowIso).tableRegistry = st.tableRegistry ∧
    (st.sysMetricsTable = none → upsertSysMetric st putFailure topic value nowIso = st) ∧
    (putFailure.isSome → upsertSysMetric st putFailure topic value nowIso = st) := by
  unfold upsertSysMetric
  cases htbl : st.sysMetricsTable with
  | none => simp
  | some tbl =>
    cases putFailure with
    | none => simp
    | some e => simp

/-- Witness for C8: a failing write against an initialized table
leaves the store untouched. -/
theorem upsertSysMetric_is_total_and_frame_witness :
    upsertSysMetric ⟨MqttMetrics.init 0, [], some ⟨[]⟩⟩ (some "engine failure")
        "$SYS/broker/uptime" "5" "t0" =
      ⟨MqttMetrics.init 0, [], some ⟨[]⟩⟩ :=
  (upsertSysMetric_is_total_and_frame ⟨MqttMetrics.init 0, [], some ⟨[]⟩⟩
    (some "engine failure") "$SYS/broker/uptime" "5" "t0").2.2.2 (by decide)

/-! ## Claim C7 -/

theorem jsSplit_ne_nil (sep : Char) (l : List Char) : jsSplit sep l ≠ [] := by
  cases l with
  | nil => simp [jsSplit]
  | cons c cs =>
    simp only [jsSplit]
    split
    · simp
    · split <;> simp

theorem jsSplit_headD (sep : Char) (l : List Char) :
    (jsSplit sep l).headD [] = l.takeWhile (fun c => c != sep) := by
  induction l with
  | nil => simp [jsSplit]
  | cons c cs ih =>
    by_cases hc : c = sep
    · subst hc
      simp [jsSplit, List.takeWhile]
    · have hne : (c != sep) = true := bne_iff_ne.mpr hc
      cases hsplit : jsSplit sep cs with
      | nil => exact absurd hsplit (jsSplit_ne_nil sep cs)
      | cons seg rest =>
        have hseg : seg = cs.takeWhile (fun x => x != sep) := by
          have := ih
          rw [hsplit] at this
          simpa using this
        simp [jsSplit, hc, hsplit, List.takeWhile, hne, hseg]

theorem takeWhile_ne_of_not_contains (sep : Char) (l : List Char)
    (h : l.contains sep = false) :
    l.takeWhile (fun c => c != sep) = l := by
  apply List.takeWhile_eq_self_iff.mpr
  intro x hx
  have : x ≠ sep := by
    intro hxs
    subst hxs
    simp [List.contains, List.elem_eq_mem] at h
    exact h hx
  exact bne_iff_ne.mpr this

theorem contains_of_takeWhile_eq_self (sep : Char) (l : List Char)
    (h : l.takeWhile (fun c => c != sep) = l) :
    l.contains sep = false := by
  have hall := List.takeWhile_eq_self_iff.mp h
  simp only [List.contains, List.elem_eq_mem, decide_eq_false_iff_not]
  intro hmem
  have := hall sep hmem
  simp at this

/-- C7: the deterministic topic-to-table mapper agrees on every input
with the specification's case analysis: default table for an empty or
null topic, a topic with no separator, or a topic with an empty first
segment; otherwise the `mqtt_` prefix followed by the text before the
first separator, lowercased with every character outside `[a-z0-9_]`
replaced by `_` (including topics that merely end with the
separator). -/
theorem getTableNameForTopic_matches_spec :
    (∀ t : String, getTableNameForTopic t = mapTopicToUnitSpec t) ∧
    getTableNameForTopicOpt none = "mqtt_messages" := by
  constructor
  · intro t
    obtain ⟨l⟩ := t
    show getTableNameForTopic ⟨l⟩ = mapTopicToUnitSpec ⟨l⟩
    simp only [getTableNameForTopic, mapTopicToUnitSpec, jsSplit_headD]
    cases l with
    | nil => simp
    | cons c cs =>
      by_cases hcont : (c :: cs).contains '/'
      · by_cases hhead : c = '/'
        · subst hhead
          simp [List.takeWhile, hcont]
        · have hne : (c != '/') = true := bne_iff_ne.mpr hhead
          have htw : (c :: cs).takeWhile (fun x => x != '/') =
              c :: cs.takeWhile (fun x => x != '/') := by
            simp [List.takeWhile, hne]
          have hbeq : ((c :: cs).takeWhile (fun x => x != '/') == c :: cs) = false := by
            apply beq_eq_false_iff_ne.mpr
            intro heq
            have hfalse := contains_of_takeWhile_eq_self '/' (c :: cs) heq
            rw [hcont] at hfalse
            simp at hfalse
          have hmem : ('/' : Char) ∈ cs := by
            have hin : ('/' : Char) ∈ c :: cs := by
              simpa [List.contains, List.elem_eq_mem] using hcont
            rcases List.mem_cons.mp hin with h | h
            · exact absurd h.symm hhead
            · exact h
          simp [htw, hbeq, hcont, hhead, hmem, List.map_map, Function.comp_def]
      · have hcont' : (c :: cs).contains '/' = false := Bool.of_not_eq_true hcont
        have hself := takeWhile_ne_of_not_contains '/' (c :: cs) hcont'
        have hnotin : ('/' : Char) ∉ c :: cs := by
          simpa [List.contains, List.elem_eq_mem] using hcont'
        have hc1 : ¬ ('/' : Char) = c := fun h => hnotin (h ▸ List.mem_cons_self c cs)
        have hc2 : ('/' : Char) ∉ cs := fun h => hnotin (List.mem_cons_of_mem c h)
        have hall : ∀ x ∈ cs, ¬ x = '/' := fun x hx hxe => hc2 (hxe ▸ hx)
        have hc1' : ¬ c = '/' := fun h => hc1 h.symm
        simp [hself, hcont', hc1, hc2, hall, hc1']
  · rfl

/-! ## Claim C2 -/

theorem getD_zero_of_head? {α : Type} (l : List α) (a d : α) (h : l.head? = some a) :
    l.getD 0 d = a := by
  cases l with
  | nil => simp at h
  | cons x xs =>
    simp at h
    simp [List.getD, h]

theorem getD_pred_length_of_getLast? {α : Type} (l : List α) (b d : α)
    (h : l.getLast? = some b) :
    l.getD (l.length - 1) d = b := by
  induction l with
  | nil => simp at h
  | cons x xs ih =>
    cases xs with
    | nil =>
      simp [List.getLast?] at h
      simp [List.getD, h]
    | cons y ys =>
      rw [List.getLast?_cons_cons] at h
      have := ih h
      simpa [List.getD] using this

/-- C2 counterexample: with a previously stored 1-minute rate of `5`
and a single sample two minutes old, the 1-minute window is empty,
and `_calculateLoadAverages` overwrites the stored rate with `0`
instead of leaving it unchanged. -/
def staleLoadMetrics : MqttMetrics :=
  { MqttMetrics.init 0 with
      load := { (MqttMetrics.init 0).load with
                  connections := { oneMin := 5, fiveMin := 5, fifteenMin := 5 } },
      loadSamples := { (MqttMetrics.init 0).loadSamples with
                         connections := [⟨0, 100⟩] } }

/-- C2: refutation of "when zero samples fall in the window the
previously stored rate is left unchanged": the converged
`_calculateLoadAverages` assigns the helper's result unconditionally,
and the helper returns `0` on an empty window. -/
theorem loadAverage_empty_window_resets :
    staleLoadMetrics.load.connections.oneMin = 5 ∧
    (staleLoadMetrics.loadSamples.connections.filter
        fun s => decide (120000 - 60 * 1000 < s.time)) = [] ∧
    (staleLoadMetrics.calculateLoadAverages 120000).load.connections.oneMin = 0 := by
  refine ⟨rfl, by decide, ?_⟩
  decide

/-- C2 amended: for every load metric and window `W ∈ {1, 5, 15}`,
`_calculateLoadAverages` stores `(last - first) / W` over the samples
with `time > now - W*60_000` when at least one such sample exists
(hence `0` for a single sample), and stores `0` — overwriting the
previous value — when the window is empty. -/
theorem loadAverages_characterized :
    (∀ (m : MqttMetrics) (now : Int),
      (m.calculateLoadAverages now).load =
        { connections := loadTripleOfSamples m.loadSamples.connections now,
          messagesReceived := loadTripleOfSamples m.loadSamples.messagesReceived now,
          messagesSent := loadTripleOfSamples m.loadSamples.messagesSent now,
          bytesReceived := loadTripleOfSamples m.loadSamples.bytesReceived now,
          bytesSent := loadTripleOfSamples m.loadSamples.bytesSent now,
          publishReceived := loadTripleOfSamples m.loadSamples.publishReceived now,
          publishSent := loadTripleOfSamples m.loadSamples.publishSent now }) ∧
    (∀ (samples : List Sample) (now : Int),
      loadTripleOfSamples samples now =
        { oneMin := calculatePeriodAverage samples (now - 60 * 1000) 1,
          fiveMin := calculatePeriodAverage samples (now - 5 * 60 * 1000) 5,
          fifteenMin := calculatePeriodAverage samples (now - 15 * 60 * 1000) 15 }) ∧
    (∀ (samples : List Sample) (cutoff : Int) (minutes : ℚ),
      ((samples.filter fun s => decide (cutoff < s.time)) = [] →
        calculatePeriodAverage samples cutoff minutes = 0) ∧
      (∀ a b,
        (samples.filter fun s => decide (cutoff < s.time)).head? = some a →
        (samples.filter fun s => decide (cutoff < s.time)).getLast? = some b →
        calculatePeriodAverage samples cutoff minutes =
          ((b.value : ℚ) - (a.value : ℚ)) / minutes)) := by
  refine ⟨fun m now => rfl, fun samples now => rfl, fun samples cutoff minutes => ⟨?_, ?_⟩⟩
  · intro hempty
    simp [calculatePeriodAverage, hempty]
  · intro a b ha hb
    have hne : samples.filter (fun s => decide (cutoff < s.time)) ≠ [] := by
      intro h
      rw [h] at ha
      simp at ha
    have hlen : 0 < (samples.filter fun s => decide (cutoff < s.time)).length :=
      List.length_pos.mpr hne
    have h0 := getD_zero_of_head? _ a (⟨0, 0⟩ : Sample) ha
    have hL := getD_pred_length_of_getLast? _ b (⟨0, 0⟩ : Sample) hb
    simp only [calculatePeriodAverage, hlen, if_pos, h0, hL]

/-- Witness for C2's amended theorem: a window holding two samples
yields the value delta over the window length. -/
theorem loadAverages_characterized_witness :
    calculatePeriodAverage [⟨10, 40⟩, ⟨20, 100⟩] 0 5 = ((100 : ℚ) - 40) / 5 :=
  (loadAverages_characterized.2.2 [⟨10, 40⟩, ⟨20, 100⟩] 0 5).2 ⟨10, 40⟩ ⟨20, 100⟩
    (by decide) (by decide)

/-! ## Claim C9 -/

theorem lookup_isSome_iff_mem {β : Type} (k : String) (l : List (String × β)) :
    (List.lookup k l).isSome ↔ k ∈ l.map Prod.fst := by
  induction l with
  | nil => simp [List.lookup]
  | cons p rest ih =>
    obtain ⟨k', v⟩ := p
    by_cases h : k = k'
    · subst h
      simp [List.lookup]
    · have hbeq : (k == k') = false := beq_eq_false_iff_ne.mpr h
      simp [List.lookup, hbeq, ih, h]

theorem sysTopicGet_ok_of_sys_prefixed (env : Env) (now : Int) (m : MqttMetrics)
    (path : String) (hsys : strStartsWith path "$SYS/" = true) :
    ∃ o, sysTopicGet env now m path = .ok o := by
  unfold sysTopicGet
  cases h : List.lookup path SYS_TOPIC_MAP with
  | some f => exact ⟨some (.sys (f env now m)), rfl⟩
  | none =>
    have h1 : (path == "__proto__") = false := by
      apply beq_eq_false_iff_ne.mpr
      intro he
      subst he
      exact absurd hsys (by decide)
    have hcontain : protoThrowingMethods.contains path = false := by
      cases hcon : protoThrowingMethods.contains path
      · rfl
      · exfalso
        have hmem : path ∈ protoThrowingMethods := by
          simpa [List.contains, List.elem_eq_mem] using hcon
        fin_cases hmem <;> exact absurd hsys (by decide)
    have hnotmem : path ∉ protoThrowingMethods := by
      intro hm
      have hcon2 : protoThrowingMethods.contains path = true := by
        simpa [List.contains, List.elem_eq_mem] using hm
      rw [hcontain] at hcon2
      simp at hcon2
    by_cases hc : (path == "constructor") = true
    · exact ⟨some .jsObject, by simp [h1, hc]⟩
    · by_cases ht : (path == "toString") = true
      · exact ⟨some (.jsString "[object Undefined]"), by simp [h1, hc, ht]⟩
      · exact ⟨none, by simp [h1, hc, ht, hnotmem]⟩

theorem exceptMapList_ok {α β : Type} (f : α → Except String β) (l : List α)
    (h : ∀ x ∈ l, ∃ y, f x = .ok y) : ∃ ys, exceptMapList f l = .ok ys := by
  induction l with
  | nil => exact ⟨[], rfl⟩
  | cons a as ih =>
    obtain ⟨y, hy⟩ := h a (List.mem_cons_self a as)
    obtain ⟨ys, hys⟩ := ih fun x hx => h x (List.mem_cons_of_mem a hx)
    exact ⟨y :: ys, by simp [exceptMapList, hy, hys]⟩

theorem all_sys_topics_sys_prefixed : ∀ t ∈ ALL_SYS_TOPICS, strStartsWith t "$SYS/" = true := by
  decide

/-- C9 counterexample: `__proto__` is not a recognized `$SYS` topic
path and contains no wildcard marker, yet `SysTopics.get` raises a
`TypeError` rather than returning `null` — the object-literal lookup
`SYS_TOPIC_MAP[topic]` finds `Object.prototype`, which is truthy but
not callable.  The likewise-unrecognized path `toString` returns the
stray non-null string `"[object Undefined]"` instead of `null`. -/
theorem sysTopicGet_raises_on_proto_path :
    "__proto__" ∉ sysTopicKeys ∧
    strContainsChar "__proto__" '#' = false ∧
    strContainsChar "__proto__" '+' = false ∧
    sysTopicGet ⟨none, none, none⟩ 0 (MqttMetrics.init 0) "__proto__" =
      .error "TypeError: handler is not a function" ∧
    "toString" ∉ sysTopicKeys ∧
    sysTopicGet ⟨none, none, none⟩ 0 (MqttMetrics.init 0) "toString" =
      .ok (some (.jsString "[object Undefined]")) :=
  ⟨by decide, by decide, by decide, rfl, by decide, rfl⟩

/-- C9 amended: `SysTopics.get` resolves every `SYS_TOPIC_MAP` key to
the corresponding current metric value, and returns `null` on every
other path except the property names inherited from
`Object.prototype`: there the truthy inherited value makes
`handler(this.metrics)` throw a `TypeError` (`__proto__` and the
strict-`this` methods) or return a stray non-null value
(`constructor`, `toString`).  The resource `get`, which hands
`SysTopics.get` only `$SYS/`-prefixed paths, never raises, and
returns `null` for unrecognized non-wildcard paths. -/
theorem sysTopicGet_characterized :
    (∀ (env : Env) (now : Int) (m : MqttMetrics) (path : String),
      path ∈ sysTopicKeys →
      ∃ v : SysVal, sysTopicGet env now m path = .ok (some (.sys v))) ∧
    (∀ (env : Env) (now : Int) (m : MqttMetrics),
      sysTopicGet env now m "$SYS/broker/clients/connected" =
        .ok (some (.sys (.int m.clients.connected))) ∧
      sysTopicGet env now m "$SYS/broker/subscriptions/count" =
        .ok (some (.sys (.int m.subscriptions.count))) ∧
      sysTopicGet env now m "$SYS/broker/bytes/received" =
        .ok (some (.sys (.int m.bytes.received))) ∧
      sysTopicGet env now m "$SYS/broker/unknown" = .ok none) ∧
    (∀ (env : Env) (now : Int) (m : MqttMetrics) (path : String),
      path ∉ sysTopicKeys → path ≠ "__proto__" → path ≠ "constructor" →
      path ≠ "toString" → protoThrowingMethods.contains path = false →
      sysTopicGet env now m path = .ok none) ∧
    (∀ (env : Env) (now : Int) (m : MqttMetrics),
      sysTopicGet env now m "__proto__" = .error "TypeError: handler is not a function" ∧
      sysTopicGet env now m "constructor" = .ok (some .jsObject) ∧
      sysTopicGet env now m "toString" = .ok (some (.jsString "[object Undefined]")) ∧
      ∀ p ∈ protoThrowingMethods,
        sysTopicGet env now m p = .error "TypeError: cannot convert undefined to object") ∧
    (∀ (env : Env) (now : Int) (m : MqttMetrics) (reg : List String) (nowIso path : String),
      ∃ r, sysTopicsResourceGet env now m reg nowIso path = .ok r) ∧
    (∀ (env : Env) (now : Int) (m : MqttMetrics) (reg : List String) (nowIso path : String),
      strStartsWith path "$SYS/" = true → strContainsChar path '#' = false →
      path ≠ "$SYS/*" → sysTopicGet env now m path = .ok none →
      sysTopicsResourceGet env now m reg nowIso path = .ok none) ∧
    (∀ (env : Env) (now : Int) (m : MqttMetrics) (reg : List String) (nowIso path : String),
      strStartsWith path "$SYS/" = false → path ≠ "/#" → path ≠ "#" →
      sysTopicsResourceGet env now m reg nowIso path = .ok none) := by
  refine ⟨?_, ?_, ?_, ?_, ?_, ?_, ?_⟩
  · intro env now m path hmem
    unfold sysTopicGet
    cases h : List.lookup path SYS_TOPIC_MAP with
    | some f => exact ⟨f env now m, rfl⟩
    | none =>
      have := (lookup_isSome_iff_mem path SYS_TOPIC_MAP).mpr hmem
      rw [h] at this
      simp at this
  · intro env now m
    exact ⟨rfl, rfl, rfl, rfl⟩
  · intro env now m path hkeys hp1 hp2 hp3 hcontain
    have hlook : List.lookup path SYS_TOPIC_MAP = none := by
      cases h : List.lookup path SYS_TOPIC_MAP with
      | none => rfl
      | some f =>
        have : (List.lookup path SYS_TOPIC_MAP).isSome := by rw [h]; rfl
        exact absurd ((lookup_isSome_iff_mem path SYS_TOPIC_MAP).mp this) hkeys
    have h1 : (path == "__proto__") = false := beq_eq_false_iff_ne.mpr hp1
    have h2 : (path == "constructor") = false := beq_eq_false_iff_ne.mpr hp2
    have h3 : (path == "toString") = false := beq_eq_false_iff_ne.mpr hp3
    have hnotmem : path ∉ protoThrowingMethods := by
      intro hm
      have hcon2 : protoThrowingMethods.contains path = true := by
        simpa [List.contains, List.elem_eq_mem] using hm
      rw [hcontain] at hcon2
      simp at hcon2
    simp [sysTopicGet, hlook, h1, h2, h3, hnotmem]
  · intro env now m
    refine ⟨rfl, rfl, rfl, ?_⟩
    intro p hp
    fin_cases hp <;> rfl
  · intro env now m reg nowIso path
    unfold sysTopicsResourceGet
    split
    · exact ⟨_, rfl⟩
    · split
      · obtain ⟨ys, hys⟩ :=
          exceptMapList_ok (fun t => (sysTopicGet env now m t).map fun v? => (t, v?))
            ALL_SYS_TOPICS (fun t ht => by
              obtain ⟨o, ho⟩ := sysTopicGet_ok_of_sys_prefixed env now m t
                (all_sys_topics_sys_prefixed t ht)
              exact ⟨(t, o), by simp [ho, Except.map]⟩)
        rw [hys]
        exact ⟨_, rfl⟩
      · split
        · obtain ⟨ys, hys⟩ :=
            exceptMapList_ok (fun t => (sysTopicGet env now m t).map fun v? => (t, v?))
              (ALL_SYS_TOPICS.filter fun t => strStartsWith t
                (String.mk (replaceFirst "#".data [] (replaceFirst "/#".data "/".data path.data))))
              (fun t ht => by
                obtain ⟨o, ho⟩ := sysTopicGet_ok_of_sys_prefixed env now m t
                  (all_sys_topics_sys_prefixed t (List.mem_filter.mp ht).1)
                exact ⟨(t, o), by simp [ho, Except.map]⟩)
          simp only [hys]
          exact ⟨_, rfl⟩
        · split
          · next hsys =>
            obtain ⟨o, ho⟩ := sysTopicGet_ok_of_sys_prefixed env now m path hsys
            rw [ho]
            cases o with
            | none => exact ⟨none, rfl⟩
            | some v => exact ⟨_, rfl⟩
          · exact ⟨none, rfl⟩
  · intro env now m reg nowIso path h1 hc hstar hget
    have h2 : (path == "/#") = false := by
      apply beq_eq_false_iff_ne.mpr
      intro he
      subst he
      exact absurd h1 (by decide)
    have h3 : (path == "#") = false := by
      apply beq_eq_false_iff_ne.mpr
      intro he
      subst he
      exact absurd h1 (by decide)
    have h4 : (path == "$SYS/#") = false := by
      apply beq_eq_false_iff_ne.mpr
      intro he
      subst he
      exact absurd hc (by decide)
    have h5 : (path == "$SYS/*") = false := beq_eq_false_iff_ne.mpr hstar
    simp [sysTopicsResourceGet, h1, h2, h3, h4, h5, hc, hget]
  · intro env now m reg nowIso path h1 hp1 hp2
    have h2 : (path == "/#") = false := beq_eq_false_iff_ne.mpr hp1
    have h3 : (path == "#") = false := beq_eq_false_iff_ne.mpr hp2
    have h4 : (path == "$SYS/#") = false := by
      apply beq_eq_false_iff_ne.mpr
      intro he
      subst he
      exact absurd h1 (by decide)
    have h5 : (path == "$SYS/*") = false := by
      apply beq_eq_false_iff_ne.mpr
      intro he
      subst he
      exact absurd h1 (by decide)
    simp [sysTopicsResourceGet, h1, h2, h3, h4, h5]

/-- Witness for C9's amended theorem: an unrecognized, non-prototype
`$SYS` topic on the resource yields `null`, not an error. -/
theorem sysTopicGet_characterized_witness :
    sysTopicsResourceGet ⟨none, none, none⟩ 0 (MqttMetrics.init 0) [] "t0"
      "$SYS/broker/unknown" = .ok none :=
  sysTopicGet_characterized.2.2.2.2.2.1 ⟨none, none, none⟩ 0 (MqttMetrics.init 0) [] "t0"
    "$SYS/broker/unknown" (by decide) (by decide) (by decide) rfl

/-! ## Claim C1 -/

theorem lookup_assocSet_self {β : Type} (r : List (String × β)) (k : String) (v : β) :
    List.lookup k (assocSet r k v) = some v := by
  induction r with
  | nil => simp [assocSet, List.lookup]
  | cons p rest ih =>
    obtain ⟨k', v'⟩ := p
    by_cases h : k' = k
    · subst h
      simp [assocSet, List.lookup]
    · have hbeq : (k' == k) = false := beq_eq_false_iff_ne.mpr h
      have hbeq' : (k == k') = false := beq_eq_false_iff_ne.mpr (Ne.symm h)
      simp [assocSet, List.lookup, hbeq, hbeq', ih]

theorem lookup_eq_none_of_not_mem {β : Type} (r : List (String × β)) (k : String)
    (h : k ∉ r.map Prod.fst) :
    List.lookup k r = none := by
  cases hl : List.lookup k r with
  | none => rfl
  | some v =>
    have : (List.lookup k r).isSome := by rw [hl]; rfl
    exact absurd ((lookup_isSome_iff_mem k r).mp this) h

theorem lookup_assocDelete_assocSet {β : Type} (r : List (String × β)) (k : String) (v : β)
    (hnodup : (r.map Prod.fst).Nodup) :
    List.lookup k (assocDelete (assocSet r k v) k) = none := by
  induction r with
  | nil => simp [assocSet, assocDelete, List.lookup]
  | cons p rest ih =>
    obtain ⟨k', v'⟩ := p
    simp only [List.map_cons, List.nodup_cons] at hnodup
    by_cases h : k' = k
    · subst h
      simp only [assocSet, beq_self_eq_true, if_pos, assocDelete]
      exact lookup_eq_none_of_not_mem rest k' hnodup.1
    · have hbeq : (k' == k) = false := beq_eq_false_iff_ne.mpr h
      have hbeq' : (k == k') = false := beq_eq_false_iff_ne.mpr (Ne.symm h)
      simp only [assocSet, hbeq, Bool.false_eq_true, if_neg, assocDelete, List.lookup,
        hbeq']
      exact ih hnodup.2

/-- A module state with one orphaning-ready registry entry, as after a
single plain subscribe to `home/temp`. -/
def orphanedState : MonState where
  metrics := .init 0
  tableRegistry := [("mqtt_home", ⟨"mqtt_home", 1, false⟩)]
  topicRegistry := ["home/temp"]
  mqttTopicsAvailable := true

/-- C1 counterexample: the unsubscribe that brings `mqtt_home`'s
`subscriptionCount` from `1` to `0` with `hasRetained = false` removes
the registry entry, but initiates no drop of the underlying storage
unit — the handler's only storage operations are the `$SYS` counter
upsert and the scheduled `mqtt_topics` record decrement, and
`cleanupTable` only deletes the registry entry. -/
theorem unsubscribe_cleanup_drops_no_unit :
    List.lookup "mqtt_home"
        (unsubscribeEventTopic orphanedState "c1" "home/temp").1.tableRegistry = none ∧
    (unsubscribeEventTopic orphanedState "c1" "home/temp").2 =
      [.sysUpsert "$SYS/broker/subscriptions/count" (.int (-1)),
       .subCountDecTask "home/temp"] ∧
    ∀ op ∈ (unsubscribeEventTopic orphanedState "c1" "home/temp").2, op.isDrop = false := by
  refine ⟨by decide, by decide, ?_⟩
  intro op hop
  fin_cases hop <;> decide

/-- C1 amended: on the unsubscribe event that brings a unit's
`subscriptionCount` from `1` to `0`, if `hasRetained` is false the
registry entry is removed — but the underlying storage unit is not
dropped (the handler initiates no drop operation); if `hasRetained` is
true, the entry is kept with `subscriptionCount = 0`. -/
theorem unsubscribe_zero_subscriptions_cleanup (st : MonState) (clientId topic : String)
    (entry : TableEntry)
    (hnodup : (st.tableRegistry.map Prod.fst).Nodup)
    (hne : topic.data.isEmpty = false)
    (hsys : (strStartsWith topic "$SYS/" || topic == "$SYS/#") = false)
    (hwild : (strContainsChar topic '#' || strContainsChar topic '+') = false)
    (hfind : List.lookup (getTableNameForTopic topic) st.tableRegistry = some entry)
    (hcount : entry.subscriptionCount = 1) :
    (∀ op ∈ (unsubscribeEventTopic st clientId topic).2, op.isDrop = false) ∧
    (entry.hasRetained = false →
      List.lookup (getTableNameForTopic topic)
        (unsubscribeEventTopic st clientId topic).1.tableRegistry = none) ∧
    (entry.hasRetained = true →
      List.lookup (getTableNameForTopic topic)
        (unsubscribeEventTopic st clientId topic).1.tableRegistry =
          some { entry with subscriptionCount := 0 }) := by
  have hcz : entry.subscriptionCount - 1 = 0 := by omega
  simp only [unsubscribeEventTopic, MqttMetrics.onUnsubscribe, hne, hsys, hwild,
    Bool.not_false, Bool.true_and, Bool.and_false, Bool.false_and, if_neg, hfind,
    Bool.not_eq_true, cleanupTable]
  cases hret : entry.hasRetained with
  | false =>
    simp only [hcz, hret, Bool.not_false, Bool.and_true, beq_self_eq_true, if_pos]
    refine ⟨?_, fun _ => ?_, fun hcontra => by simp [hret] at hcontra⟩
    · intro op hop
      rcases List.mem_append.mp hop with h | h
      · simp only [List.mem_singleton] at h
        subst h
        rfl
      · split at h
        · simp only [List.mem_singleton] at h
          subst h
          rfl
        · simp at h
    · exact lookup_assocDelete_assocSet st.tableRegistry (getTableNameForTopic topic) _ hnodup
  | true =>
    simp only [hcz, hret, Bool.not_true, Bool.and_false, Bool.false_eq_true, if_neg]
    refine ⟨?_, fun hcontra => by simp [hret] at hcontra, fun _ => ?_⟩
    · intro op hop
      rcases List.mem_append.mp hop with h | h
      · simp only [List.mem_singleton] at h
        subst h
        rfl
      · split at h
        · simp only [List.mem_singleton] at h
          subst h
          rfl
        · simp at h
    · exact lookup_assocSet_self st.tableRegistry (getTableNameForTopic topic) _

/-- Witness for C1's amended theorem at a concrete state: the entry
for `mqtt_home` is gone after the orphaning unsubscribe. -/
theorem unsubscribe_zero_subscriptions_cleanup_witness :
    List.lookup (getTableNameForTopic "home/temp")
      (unsubscribeEventTopic orphanedState "c1" "home/temp").1.tableRegistry = none :=
  (unsubscribe_zero_subscriptions_cleanup orphanedState "c1" "home/temp"
    ⟨"mqtt_home", 1, false⟩ (by decide) (by decide) (by decide) (by decide)
    (by decide) (by decide)).2.1 rfl

/-! ## Claim C3 -/

/-- C3 counterexample: a subscribe to the wildcard topic `home/#` on a
fresh module state does create a storage unit and a registry entry —
the handler's wildcard branch maps the base segment `home` (which has
no separator, hence the default table) and registers it with
`subscriptionCount = 1`, firing a table creation. -/
theorem wildcard_subscribe_touches_registry :
    (subscribeEventTopic (initMonState 0 false) "c1" "home/#").1.tableRegistry =
      [("mqtt_messages", ⟨"mqtt_messages", 1, false⟩)] ∧
    StorageOp.ensureTable "mqtt_messages" ∈
      (subscribeEventTopic (initMonState 0 false) "c1" "home/#").2 := by
  decide

/-- C3 amended: a wildcard subscribe increments `subscriptions.count`
and leaves `topicRegistry` alone, and it skips unit creation only when
the topic's first segment is itself `#` or `+` (or empty); otherwise
it creates (seeding `subscriptionCount = 1`) or increments the
registry entry for the table mapped from the base segment, with an
idempotent table-creation attempt on first registration. -/
theorem wildcard_subscribe_behavior (st : MonState) (clientId topic : String)
    (hne : topic.data.isEmpty = false)
    (hsys : (strStartsWith topic "$SYS/" || topic == "$SYS/#") = false)
    (hwild : (strContainsChar topic '#' || strContainsChar topic '+') = true) :
    (subscribeEventTopic st clientId topic).1.metrics.subscriptions.count =
      st.metrics.subscriptions.count + 1 ∧
    (subscribeEventTopic st clientId topic).1.topicRegistry = st.topicRegistry ∧
    (((topic.data.takeWhile fun c => c != '/').isEmpty ||
        (topic.data.takeWhile fun c => c != '/') == "#".data ||
        (topic.data.takeWhile fun c => c != '/') == "+".data) = true →
      (subscribeEventTopic st clientId topic).1.tableRegistry = st.tableRegistry ∧
      ∀ n, StorageOp.ensureTable n ∉ (subscribeEventTopic st clientId topic).2) ∧
    (((topic.data.takeWhile fun c => c != '/').isEmpty ||
        (topic.data.takeWhile fun c => c != '/') == "#".data ||
        (topic.data.takeWhile fun c => c != '/') == "+".data) = false →
      (List.lookup (getTableNameForTopic ⟨topic.data.takeWhile fun c => c != '/'⟩)
          st.tableRegistry = none →
        (subscribeEventTopic st clientId topic).1.tableRegistry =
          assocSet st.tableRegistry
            (getTableNameForTopic ⟨topic.data.takeWhile fun c => c != '/'⟩)
            ⟨getTableNameForTopic ⟨topic.data.takeWhile fun c => c != '/'⟩, 1, false⟩ ∧
        StorageOp.ensureTable (getTableNameForTopic ⟨topic.data.takeWhile fun c => c != '/'⟩) ∈
          (subscribeEventTopic st clientId topic).2) ∧
      (∀ e, List.lookup (getTableNameForTopic ⟨topic.data.takeWhile fun c => c != '/'⟩)
          st.tableRegistry = some e →
        (subscribeEventTopic st clientId topic).1.tableRegistry =
          assocSet st.tableRegistry
            (getTableNameForTopic ⟨topic.data.takeWhile fun c => c != '/'⟩)
            { e with subscriptionCount := e.subscriptionCount + 1 })) := by
  have htask : (!(strContainsChar topic '#') && !(strContainsChar topic '+')) = false := by
    cases h1 : strContainsChar topic '#' <;> cases h2 : strContainsChar topic '+' <;>
      simp_all
  by_cases hbase : ((topic.data.takeWhile fun c => c != '/').isEmpty ||
      (topic.data.takeWhile fun c => c != '/') == "#".data ||
      (topic.data.takeWhile fun c => c != '/') == "+".data) = true
  · have hcond : (!(topic.data.takeWhile fun c => c != '/').isEmpty &&
        !((topic.data.takeWhile fun c => c != '/') == "#".data) &&
        !((topic.data.takeWhile fun c => c != '/') == "+".data)) = false := by
      cases ha : (topic.data.takeWhile fun c => c != '/').isEmpty <;>
        cases hb : ((topic.data.takeWhile fun c => c != '/') == "#".data) <;>
        cases hc : ((topic.data.takeWhile fun c => c != '/') == "+".data) <;>
        simp_all
    have hred : subscribeEventTopic st clientId topic =
        ({ st with metrics := { st.metrics with
              subscriptions := { count := st.metrics.subscriptions.count + 1 } } },
         [.sysUpsert "$SYS/broker/subscriptions/count"
            (.int (st.metrics.subscriptions.count + 1))]) := by
      simp only [subscribeEventTopic, MqttMetrics.onSubscribe, hne, hsys, hwild, htask,
        hcond, jsSplit_headD, Bool.false_eq_true, if_neg, if_pos, List.nil_append]
      simp
    refine ⟨by rw [hred], by rw [hred], fun _ => ⟨by rw [hred], fun n hmem => ?_⟩,
      fun hcontra => absurd hbase (by simp [hcontra])⟩
    rw [hred] at hmem
    simp at hmem
  · have hbf := Bool.of_not_eq_true hbase
    have hcond : (!(topic.data.takeWhile fun c => c != '/').isEmpty &&
        !((topic.data.takeWhile fun c => c != '/') == "#".data) &&
        !((topic.data.takeWhile fun c => c != '/') == "+".data)) = true := by
      cases ha : (topic.data.takeWhile fun c => c != '/').isEmpty <;>
        cases hb : ((topic.data.takeWhile fun c => c != '/') == "#".data) <;>
        cases hc : ((topic.data.takeWhile fun c => c != '/') == "+".data) <;>
        simp_all
    cases hlook : List.lookup (getTableNameForTopic ⟨topic.data.takeWhile fun c => c != '/'⟩)
        st.tableRegistry with
    | none =>
      have hred : subscribeEventTopic st clientId topic =
          ({ st with
              metrics := { st.metrics with
                subscriptions := { count := st.metrics.subscriptions.count + 1 } },
              tableRegistry := assocSet st.tableRegistry
                (getTableNameForTopic ⟨topic.data.takeWhile fun c => c != '/'⟩)
                ⟨getTableNameForTopic ⟨topic.data.takeWhile fun c => c != '/'⟩, 1, false⟩ },
           [.sysUpsert "$SYS/broker/subscriptions/count"
              (.int (st.metrics.subscriptions.count + 1)),
            .ensureTable (getTableNameForTopic ⟨topic.data.takeWhile fun c => c != '/'⟩)]) := by
        simp only [subscribeEventTopic, MqttMetrics.onSubscribe, hne, hsys, hwild, htask,
          hcond, hlook, jsSplit_headD, Bool.false_eq_true, if_neg, if_pos, List.nil_append,
          List.singleton_append, List.cons_append, List.nil_append]
        simp
      refine ⟨by rw [hred], by rw [hred],
        fun hcontra => absurd hcontra (by simp [hbf]),
        fun _ => ⟨fun _ => ⟨by rw [hred], by rw [hred]; simp⟩,
          fun e he => absurd he (by simp)⟩⟩
    | some entry =>
      have hred : subscribeEventTopic st clientId topic =
          ({ st with
              metrics := { st.metrics with
                subscriptions := { count := st.metrics.subscriptions.count + 1 } },
              tableRegistry := assocSet st.tableRegistry
                (getTableNameForTopic ⟨topic.data.takeWhile fun c => c != '/'⟩)
                { entry with subscriptionCount := entry.subscriptionCount + 1 } },
           [.sysUpsert "$SYS/broker/subscriptions/count"
              (.int (st.metrics.subscriptions.count + 1))]) := by
        simp only [subscribeEventTopic, MqttMetrics.onSubscribe, hne, hsys, hwild, htask,
          hcond, hlook, jsSplit_headD, Bool.false_eq_true, if_neg, if_pos, List.nil_append]
        simp
      refine ⟨by rw [hred], by rw [hred],
        fun hcontra => absurd hcontra (by simp [hbf]),
        fun _ => ⟨fun hn => absurd hn (by simp), fun e he => ?_⟩⟩
      cases Option.some.inj he
      rw [hred]

/-- Witness for C3's amended theorem: the `home/#` subscribe bumps the
generic counter by one. -/
theorem wildcard_subscribe_behavior_witness :
    (subscribeEventTopic (initMonState 0 false) "c1" "home/#").1.metrics.subscriptions.count =
      (initMonState 0 false).metrics.subscriptions.count + 1 :=
  (wildcard_subscribe_behavior (initMonState 0 false) "c1" "home/#"
    (by decide) (by decide) (by decide)).1

/-! ## Claim C10 -/

theorem mem_setAdd {reg : List String} {t x : String} (hx : x ∈ setAdd reg t) :
    x ∈ reg ∨ x = t := by
  unfold setAdd at hx
  split at hx
  · exact Or.inl hx
  · rcases List.mem_append.mp hx with h | h
    · exact Or.inl h
    · exact Or.inr (List.mem_singleton.mp h)

theorem publish_preserves_no_sys (st : MonState) (topic? payload? : Option String)
    (hinv : ∀ t ∈ st.topicRegistry, strStartsWith t "$SYS/" = false) :
    ∀ t ∈ (publishEventTopic st topic? payload?).topicRegistry,
      strStartsWith t "$SYS/" = false := by
  intro t ht
  cases topic? with
  | none =>
    simp only [publishEventTopic] at ht
    exact hinv t ht
  | some s =>
    simp only [publishEventTopic] at ht
    by_cases hcond : (!s.data.isEmpty && !(strStartsWith s "$SYS/")) = true
    · rw [if_pos hcond] at ht
      rcases mem_setAdd ht with h | h
      · exact hinv t h
      · subst h
        have hh : (!strStartsWith t "$SYS/") = true := by
          rw [Bool.and_eq_true] at hcond
          exact hcond.2
        cases hb : strStartsWith t "$SYS/"
        · rfl
        · rw [hb] at hh
          simp at hh
    · rw [if_neg hcond] at ht
      exact hinv t ht

theorem publishes_preserve_no_sys (pubs : List PublishPacket) (st : MonState)
    (hinv : ∀ t ∈ st.topicRegistry, strStartsWith t "$SYS/" = false) :
    ∀ t ∈ (applyPublishEvents st pubs).topicRegistry, strStartsWith t "$SYS/" = false := by
  induction pubs generalizing st with
  | nil => exact hinv
  | cons p rest ih =>
    exact ih (publishEventTopic st p.1 p.2)
      (publish_preserves_no_sys st p.1 p.2 hinv)

/-- C10: no `$SYS/`-prefixed topic ever reaches a root-wildcard
enumeration: the publish handler filters them out of `topicRegistry`,
so any sequence of publish events from the initial state leaves the
registry `$SYS`-free, the `/#` branch of the `$SYS` resource
enumerates only registry topics, and the wildcard resource filters
`$SYS/`-prefixed entries out of whatever registry it is handed. -/
theorem rootWildcard_never_shows_sys (startTime : Int) (avail : Bool)
    (pubs : List PublishPacket) :
    (∀ t ∈ (applyPublishEvents (initMonState startTime avail) pubs).topicRegistry,
      strStartsWith t "$SYS/" = false) ∧
    (∀ (env : Env) (now : Int) (m : MqttMetrics) (nowIso pattern : String) (count : Nat)
        (ts : List TopicStamp),
      sysTopicsResourceGet env now m
          (applyPublishEvents (initMonState startTime avail) pubs).topicRegistry nowIso "/#" =
        .ok (some (.topicList pattern count ts)) →
      ∀ e ∈ ts, strStartsWith e.topic "$SYS/" = false) ∧
    (∀ (reg : List String) (nowIso path pattern : String) (count : Nat)
        (ts : List TopicStamp),
      wildcardTopicsResourceGet reg nowIso path = some (.topicList pattern count ts) →
      ∀ e ∈ ts, strStartsWith e.topic "$SYS/" = false) := by
  have hbase : ∀ t ∈ (applyPublishEvents (initMonState startTime avail) pubs).topicRegistry,
      strStartsWith t "$SYS/" = false :=
    publishes_preserve_no_sys pubs (initMonState startTime avail) (by simp [initMonState])
  refine ⟨hbase, ?_, ?_⟩
  · intro env now m nowIso pattern count ts hres e he
    have hval : sysTopicsResourceGet env now m
        (applyPublishEvents (initMonState startTime avail) pubs).topicRegistry nowIso "/#" =
        .ok (some (.topicList "/#"
          (applyPublishEvents (initMonState startTime avail) pubs).topicRegistry.length
          ((applyPublishEvents (initMonState startTime avail) pubs).topicRegistry.map
            fun t => ⟨t, nowIso⟩))) := rfl
    rw [hval] at hres
    injection hres with h0
    injection h0 with h1
    injection h1 with hp hc hts
    subst hts
    rcases List.mem_map.mp he with ⟨t, htmem, hte⟩
    subst hte
    exact hbase t htmem
  · intro reg nowIso path pattern count ts hres e he
    unfold wildcardTopicsResourceGet at hres
    split at hres
    · injection hres with h1
      injection h1 with hp hc hts
      subst hts
      rcases List.mem_map.mp he with ⟨t, htmem, hte⟩
      subst hte
      have := List.mem_filter.mp htmem
      have hfilter := this.2
      cases hval : strStartsWith t "$SYS/"
      · rfl
      · rw [hval] at hfilter
        simp at hfilter
    · simp at hres

/-- Witness for C10: after publishing to `home/t` and to a `$SYS`
topic, the registry holds only the non-`$SYS` topic. -/
theorem rootWildcard_never_shows_sys_witness :
    strStartsWith "home/t" "$SYS/" = false :=
  (rootWildcard_never_shows_sys 0 false
      [(some "home/t", some "x"), (some "$SYS/broker/version", none)]).1
    "home/t" (by decide)

end MqttInterop
